import Mathlib

/-!
Verification of the PhotoLite history/undo-redo engine and layer projection
(Hantu-Raya/Web-tools, `photo-editor/js/history-manager.js` and
`photo-editor/js/layer-manager.js`), as a shallow embedding in Lean 4.

JavaScript conventions are modelled explicitly:
* `undefined`/missing object properties become `Option` values;
* array indexing `a[i]` with a possibly negative index becomes `jsGet`;
* `Array.prototype.slice(0, e)` becomes `jsSliceTo` (negative end indices
  count from the end, as in JS);
* the truthiness fallback `x || d` on strings becomes `jsOrString`
  (both `undefined` and the empty string fall back to the default);
* numeric values carried around but never computed with (timestamps,
  opacities) are modelled as integers; only their JS truthiness matters.

The Fabric.js canvas is the external Scene Graph collaborator: an ordered
object list plus surface width/height/background.  Its `toJSON` serialization
is modelled structurally (the tagged object list itself is the serialized
form), and `loadFromJSON` is an abstract fallible deserializer passed as a
parameter: it either fails with an error, leaving the object set alone, or
yields the full replacement object set, which is swapped in.
-/

namespace PhotoLite

/-- JS array read `a[i]`: `undefined` (here `none`) when `i` is negative or
past the end. -/
def jsGet (l : List α) (i : Int) : Option α :=
  if 0 ≤ i then l.get? i.toNat else none

/-- JS `a.slice(0, e)`: a negative end index counts from the end of the
array, and the end index is clamped to the array length. -/
def jsSliceTo (l : List α) (e : Int) : List α :=
  let n : Int := l.length
  let e' : Int := if e < 0 then max (n + e) 0 else min e n
  l.take e'.toNat

/-- JS `s || d` for a possibly undefined string `s`: both `undefined` and
the empty string are falsy and fall back to `d`. -/
def jsOrString (s : Option String) (d : String) : String :=
  match s with
  | none => d
  | some v => if v = "" then d else v

/-- One drawable object of the Scene Graph, with the dynamically attached
tags the editor uses.  `payload` stands in for the geometry/style data the
external library owns; the remaining fields are the properties the
repository code reads or writes (`layerId`, `layerName`, `type`, `visible`,
`opacity`, `isLocked`, `isCropUI`, `excludeFromExport`, `selectable`,
`evented`), each `Option` when the code checks for `undefined`.  `isCropUI`
and `excludeFromExport` are only ever tested for truthiness, so they are
plain booleans. -/
structure SceneObject where
  payload : Nat
  layerId : Option String
  layerName : Option String
  type : Option String
  visible : Option Bool
  opacity : Option Int
  isLocked : Option Bool
  isCropUI : Bool
  excludeFromExport : Bool
  selectable : Option Bool
  evented : Option Bool
deriving DecidableEq

/-- The Fabric.js canvas as seen by the history manager: surface dimensions,
background color (possibly unset) and the ordered drawable object list
(first element = bottom of the stacking order). -/
structure Canvas where
  width : Nat
  height : Nat
  backgroundColor : Option String
  objects : List SceneObject
deriving DecidableEq

/-- `canvas.toJSON([custom props])`: structural model of serialization.
The serialized scene is the tagged object list itself; serialization is
deterministic and injective on the modelled fields, which is all the
byte-identity claims need. -/
def Canvas.toJSON (c : Canvas) : List SceneObject :=
  c.objects

/-- One history snapshot, as built by `HistoryManager.saveState`. -/
structure Snapshot where
  json : List SceneObject
  action : String
  timestamp : Nat
  canvasWidth : Nat
  canvasHeight : Nat
  backgroundColor : Option String
deriving DecidableEq

/-- The record returned by `HistoryManager.getInfo`. -/
structure HistoryInfo where
  totalStates : Nat
  currentIndex : Int
  canUndo : Bool
  canRedo : Bool
  currentAction : String
deriving DecidableEq

/-- Observable side effects of history operations: a `change` notification
delivered to every subscriber, or the `canvas:restored` window event with
the dimensions recorded in the restored snapshot. -/
inductive HEvent where
  | change (info : HistoryInfo)
  | canvasRestored (width : Nat) (height : Nat)
deriving DecidableEq

/-- State of a `HistoryManager` instance.  `currentIndex` is a JS number
that starts at `-1`, hence `Int`.  Subscribed callbacks are opaque; the
`listeners` field keeps their identities so theorems can state that the
subscriber set is untouched. -/
structure HistoryManager where
  states : List Snapshot
  currentIndex : Int
  maxStates : Nat
  isRestoring : Bool
  listeners : List Nat
deriving DecidableEq

/-- `new HistoryManager(maxStates)`; the JS default capacity is 50. -/
def HistoryManager.new (maxStates : Nat) : HistoryManager :=
  { states := [], currentIndex := -1, maxStates := maxStates,
    isRestoring := false, listeners := [] }

/-- `canUndo()`: `this.currentIndex > 0`. -/
def HistoryManager.canUndo (h : HistoryManager) : Bool :=
  h.currentIndex > 0

/-- `canRedo()`: `this.currentIndex < this.states.length - 1`. -/
def HistoryManager.canRedo (h : HistoryManager) : Bool :=
  h.currentIndex < (h.states.length : Int) - 1

/-- `getInfo()`: counts, flags and the label of the current snapshot
(`states[currentIndex]?.action || 'Initial'`). -/
def HistoryManager.getInfo (h : HistoryManager) : HistoryInfo :=
  { totalStates := h.states.length,
    currentIndex := h.currentIndex,
    canUndo := h.canUndo,
    canRedo := h.canRedo,
    currentAction := jsOrString ((jsGet h.states h.currentIndex).map (·.action)) "Initial" }

/-- The snapshot literal built inside `saveState`. -/
def mkSnapshot (canvas : Canvas) (action : String) (now : Nat) : Snapshot :=
  { json := canvas.toJSON,
    action := action,
    timestamp := now,
    canvasWidth := canvas.width,
    canvasHeight := canvas.height,
    backgroundColor := canvas.backgroundColor }

/-- `saveState(canvas, action)`.  Returns the updated manager and the list
of emitted side effects (`_notifyChange` at the end).  Steps, as in the
source: bail out while restoring; truncate the redo branch
(`states.slice(0, currentIndex + 1)`) when the cursor is not at the last
index; push the new snapshot and advance the cursor; if the length now
exceeds `maxStates`, `shift()` the oldest snapshot out and decrement the
cursor; finally notify subscribers. -/
def HistoryManager.saveState (h : HistoryManager) (canvas : Canvas)
    (action : String) (now : Nat) : HistoryManager × List HEvent :=
  if h.isRestoring then (h, [])
  else
    let states₁ :=
      if h.currentIndex < (h.states.length : Int) - 1 then
        jsSliceTo h.states (h.currentIndex + 1)
      else h.states
    let states₂ := states₁ ++ [mkSnapshot canvas action now]
    let idx₂ := h.currentIndex + 1
    let next :=
      if states₂.length > h.maxStates then (states₂.drop 1, idx₂ - 1)
      else (states₂, idx₂)
    let h' := { h with states := next.1, currentIndex := next.2 }
    (h', [HEvent.change h'.getInfo])

/-- Step 1 of `_restoreState`: `if (state.canvasWidth && state.canvasHeight)`
(JS truthiness: nonzero) and the live dimensions differ, resize the surface. -/
def applySnapshotDims (canvas : Canvas) (st : Snapshot) : Canvas :=
  if st.canvasWidth ≠ 0 ∧ st.canvasHeight ≠ 0 then
    if canvas.width ≠ st.canvasWidth ∨ canvas.height ≠ st.canvasHeight then
      { canvas with width := st.canvasWidth, height := st.canvasHeight }
    else canvas
  else canvas

/-- Step 2 of `_restoreState`: `if (state.backgroundColor !== undefined &&
canvas.backgroundColor !== state.backgroundColor)`, apply the stored
background. -/
def applySnapshotBackground (canvas : Canvas) (st : Snapshot) : Canvas :=
  match st.backgroundColor with
  | none => canvas
  | some bg =>
    if canvas.backgroundColor ≠ some bg then
      { canvas with backgroundColor := some bg }
    else canvas

/-- `_restoreState(canvas, state)`.  `deser` is the external
`canvas.loadFromJSON`: it either throws (`Except.error`), in which case the
object set is not replaced, or produces the replacement object set.  The
result quadruple is (manager, canvas, result, events); `result` is
`Except.error e` when deserialization threw (the `async` function rejects
and the error propagates to the caller).  Faithful detail: on the error
path `isRestoring` is left `true` — the source clears the flag only after
the `await` succeeds, and has no `try`/`finally`. -/
def HistoryManager.restoreState
    (deser : List SceneObject → Except String (List SceneObject))
    (h : HistoryManager) (canvas : Canvas) (state : Option Snapshot) :
    HistoryManager × Canvas × Except String Bool × List HEvent :=
  match state with
  | none => (h, canvas, Except.ok false, [])
  | some st =>
    let h₁ := { h with isRestoring := true }
    let canvas₂ := applySnapshotBackground (applySnapshotDims canvas st) st
    match deser st.json with
    | Except.error e => (h₁, canvas₂, Except.error e, [])
    | Except.ok objs =>
      let canvas₃ := { canvas₂ with objects := objs }
      let h₂ := { h₁ with isRestoring := false }
      (h₂, canvas₃, Except.ok true,
        [HEvent.change h₂.getInfo, HEvent.canvasRestored st.canvasWidth st.canvasHeight])

/-- `undo(canvas)`: fail fast when `!canUndo()`, otherwise decrement the
cursor and restore `states[currentIndex]`. -/
def HistoryManager.undo (deser : List SceneObject → Except String (List SceneObject))
    (h : HistoryManager) (canvas : Canvas) :
    HistoryManager × Canvas × Except String Bool × List HEvent :=
  if h.canUndo then
    let h₁ := { h with currentIndex := h.currentIndex - 1 }
    HistoryManager.restoreState deser h₁ canvas (jsGet h₁.states h₁.currentIndex)
  else (h, canvas, Except.ok false, [])

/-- `redo(canvas)`: fail fast when `!canRedo()`, otherwise increment the
cursor and restore `states[currentIndex]`. -/
def HistoryManager.redo (deser : List SceneObject → Except String (List SceneObject))
    (h : HistoryManager) (canvas : Canvas) :
    HistoryManager × Canvas × Except String Bool × List HEvent :=
  if h.canRedo then
    let h₁ := { h with currentIndex := h.currentIndex + 1 }
    HistoryManager.restoreState deser h₁ canvas (jsGet h₁.states h₁.currentIndex)
  else (h, canvas, Except.ok false, [])

/-- `clear()`: empty the sequence, reset the cursor to `-1`, notify. -/
def HistoryManager.clear (h : HistoryManager) : HistoryManager × List HEvent :=
  let h' := { h with states := [], currentIndex := -1 }
  (h', [HEvent.change h'.getInfo])

/-- `onChange(callback)`: append a subscriber. -/
def HistoryManager.onChange (h : HistoryManager) (cb : Nat) : HistoryManager :=
  { h with listeners := h.listeners ++ [cb] }

/-- One Layer Descriptor, as built by `_syncLayersFromCanvas`: a read-only
projection of one scene object plus a non-owning reference to it. -/
structure Layer where
  id : Option String
  name : String
  type : Option String
  visible : Bool
  opacity : Int
  locked : Bool
  object : SceneObject
deriving DecidableEq

/-- The descriptor literal inside `_syncLayersFromCanvas`:
`{ id: obj.layerId, name: obj.layerName || Layer (index+1), type: obj.type,
visible: obj.visible !== false, opacity: obj.opacity || 1,
locked: obj.isLocked === true, object: obj }`, where `index` is the
position in the filtered (pre-reverse) list. -/
def mkLayer (index : Nat) (obj : SceneObject) : Layer :=
  { id := obj.layerId,
    name := jsOrString obj.layerName s!"Layer {index + 1}",
    type := obj.type,
    visible := match obj.visible with
      | some false => false
      | _ => true,
    opacity := match obj.opacity with
      | none => 1
      | some v => if v = 0 then 1 else v,
    locked := match obj.isLocked with
      | some true => true
      | _ => false,
    object := obj }

/-- The pure core of `_syncLayersFromCanvas` (identical in both revisions
of `layer-manager.js`): filter out crop-UI and export-excluded objects, map
each remaining object to a Layer Descriptor, and reverse so index 0 is the
topmost (last drawn) object. -/
def syncLayers (objects : List SceneObject) : List Layer :=
  (((objects.filter fun o => !o.isCropUI && !o.excludeFromExport).mapIdx
    fun i o => mkLayer i o)).reverse

/-- State of a `LayerManager` instance, restricted to the fields
`_syncLayersFromCanvas` touches.  The thumbnail cache (second revision) is
an association list keyed by layer id string. -/
structure LayerManager where
  layers : List Layer
  activeLayerId : Option String
  layerCounter : Nat
  thumbnailCache : List (String × Nat)
deriving DecidableEq

/-- `_syncLayersFromCanvas()` (second revision, a superset of the first):
rebuild `this.layers` from `canvas.getObjects()`, then drop cache entries
whose id is no longer among the live layer ids.  The canvas is only read;
it is threaded through unchanged in the return value to make that
explicit. -/
def LayerManager.syncLayersFromCanvas (lm : LayerManager) (canvas : Canvas) :
    LayerManager × Canvas :=
  let layers := syncLayers canvas.objects
  let activeIds := layers.map (·.id)
  ({ lm with
      layers := layers,
      thumbnailCache :=
        lm.thumbnailCache.filter fun kv => decide (some kv.1 ∈ activeIds) },
    canvas)

/-- Input of one `saveState` call: the canvas at commit time, the action
label and the `Date.now()` value. -/
structure CommitInput where
  canvas : Canvas
  action : String
  now : Nat
deriving DecidableEq

/-- A sequence of `saveState` calls, in order (no restore in between). -/
def commitSeq (h : HistoryManager) (inputs : List CommitInput) : HistoryManager :=
  inputs.foldl (fun acc i => (acc.saveState i.canvas i.action i.now).1) h

/-! ### Concrete fixtures for scenario theorems and witnesses -/

/-- A plain content object (not crop UI, not export-excluded). -/
def sampleObj (n : Nat) : SceneObject :=
  { payload := n,
    layerId := some s!"layer_{n}",
    layerName := some s!"Object {n}",
    type := some "rect",
    visible := none,
    opacity := none,
    isLocked := none,
    isCropUI := false,
    excludeFromExport := false,
    selectable := some true,
    evented := some true }

/-- A canvas whose single content object identifies it. -/
def sampleCanvas (n : Nat) : Canvas :=
  { width := 800, height := 600, backgroundColor := some "#ffffff",
    objects := [sampleObj n] }

/-- The well-behaved external deserializer: `loadFromJSON` succeeds and the
structural serialization round-trips. -/
def deserOk : List SceneObject → Except String (List SceneObject) :=
  fun js => Except.ok js

/-- An external deserializer that always throws (malformed snapshot). -/
def deserFail : List SceneObject → Except String (List SceneObject) :=
  fun _ => Except.error "malformed"

/-- History `[a, b, c]` with the cursor on `b` (index 1), as in the
cursor-truncation example. -/
def historyABCatB : HistoryManager :=
  { states := [mkSnapshot (sampleCanvas 1) "a" 1,
               mkSnapshot (sampleCanvas 2) "b" 2,
               mkSnapshot (sampleCanvas 3) "c" 3],
    currentIndex := 1, maxStates := 50, isRestoring := false, listeners := [] }

/-- The manager obtained by committing `a`, `b`, `c` on a fresh history of
capacity 2. -/
def historyCap2ABC : HistoryManager :=
  commitSeq (HistoryManager.new 2)
    [⟨sampleCanvas 1, "a", 1⟩, ⟨sampleCanvas 2, "b", 2⟩, ⟨sampleCanvas 3, "c", 3⟩]

/-- A manager caught mid-restore (`isRestoring` set), with one subscriber. -/
def historyMidRestore : HistoryManager :=
  { states := [mkSnapshot (sampleCanvas 1) "a" 1,
               mkSnapshot (sampleCanvas 2) "b" 2],
    currentIndex := 0, maxStates := 50, isRestoring := true, listeners := [7] }

/-- History `[a, b]` with the cursor at index 0: nothing to undo. -/
def historyAtStart : HistoryManager :=
  { states := [mkSnapshot (sampleCanvas 1) "a" 1,
               mkSnapshot (sampleCanvas 2) "b" 2],
    currentIndex := 0, maxStates := 50, isRestoring := false, listeners := [] }

/-- Reachability invariant of a history after `k` commits from a fresh
manager of capacity `C`: bounded length `min k C`, cursor on the last
snapshot, not restoring, capacity `C`. -/
def HistInv (h : HistoryManager) (k C : Nat) : Prop :=
  h.states.length = min k C ∧
  h.currentIndex = (h.states.length : Int) - 1 ∧
  h.isRestoring = false ∧
  h.maxStates = C

/-! ### Shared helper lemmas -/

theorem jsSliceTo_of_nonneg (l : List α) (e : Int) (he : 0 ≤ e) :
    jsSliceTo l e = l.take e.toNat := by
  unfold jsSliceTo
  have h1 : ¬ e < 0 := by omega
  simp only [h1, if_false]
  rcases le_total e (l.length : Int) with h | h
  · rw [min_eq_left h]
  · rw [min_eq_right h]
    rw [Int.toNat_ofNat, List.take_length]
    exact (List.take_of_length_le (by omega)).symm

theorem saveState_of_isRestoring {h : HistoryManager} (canvas : Canvas)
    (action : String) (now : Nat) (hr : h.isRestoring = true) :
    h.saveState canvas action now = (h, []) := by
  simp [HistoryManager.saveState, hr]

theorem commitSeq_of_isRestoring {h : HistoryManager}
    (inputs : List CommitInput) (hr : h.isRestoring = true) :
    commitSeq h inputs = h := by
  induction inputs with
  | nil => rfl
  | cons i rest ih =>
    show commitSeq (h.saveState i.canvas i.action i.now).1 rest = h
    rw [saveState_of_isRestoring i.canvas i.action i.now hr]
    exact ih

theorem applySnapshotDims_objects (canvas : Canvas) (st : Snapshot) :
    (applySnapshotDims canvas st).objects = canvas.objects := by
  unfold applySnapshotDims
  split <;> [skip; rfl]
  split <;> rfl

theorem applySnapshotBackground_objects (canvas : Canvas) (st : Snapshot) :
    (applySnapshotBackground canvas st).objects = canvas.objects := by
  unfold applySnapshotBackground
  split
  · rfl
  · split <;> rfl

theorem restoreState_of_error
    (deser : List SceneObject → Except String (List SceneObject))
    (h : HistoryManager) (canvas : Canvas) (st : Snapshot) (e : String)
    (hf : deser st.json = Except.error e) :
    HistoryManager.restoreState deser h canvas (some st) =
      ({ h with isRestoring := true },
       applySnapshotBackground (applySnapshotDims canvas st) st,
       Except.error e, []) := by
  simp [HistoryManager.restoreState, hf]

theorem restoreState_fst
    (deser : List SceneObject → Except String (List SceneObject))
    (h : HistoryManager) (canvas : Canvas) (st : Option Snapshot) :
    ∃ b, (HistoryManager.restoreState deser h canvas st).1 =
      { h with isRestoring := b } := by
  cases st with
  | none => exact ⟨h.isRestoring, rfl⟩
  | some s =>
    cases hd : deser s.json with
    | error e => exact ⟨true, by simp [HistoryManager.restoreState, hd]⟩
    | ok objs => exact ⟨false, by simp [HistoryManager.restoreState, hd]⟩

theorem filter_self_filter (p : α → Bool) (l : List α) :
    (l.filter p).filter p = l.filter p := by
  induction l with
  | nil => rfl
  | cons a t ih =>
    by_cases hp : p a
    · simp [List.filter_cons, hp, ih]
    · simp [List.filter_cons, hp, ih]

/-- `saveState` on a manager whose cursor is already on the last snapshot:
no truncation happens; the new snapshot is appended, and the oldest one is
shifted out exactly when the capacity is exceeded. -/
theorem saveState_at_end {h : HistoryManager} (canvas : Canvas)
    (action : String) (now : Nat)
    (hres : h.isRestoring = false)
    (hcur : ¬ h.currentIndex < (h.states.length : Int) - 1) :
    (h.saveState canvas action now).1 =
      if h.states.length + 1 > h.maxStates then
        { h with states := (h.states ++ [mkSnapshot canvas action now]).drop 1,
                 currentIndex := h.currentIndex + 1 - 1 }
      else
        { h with states := h.states ++ [mkSnapshot canvas action now],
                 currentIndex := h.currentIndex + 1 } := by
  unfold HistoryManager.saveState
  rw [if_neg (by rw [hres]; exact Bool.false_ne_true), if_neg hcur]
  by_cases hev : h.states.length + 1 > h.maxStates
  · simp only [List.length_append, List.length_singleton, if_pos hev]
  · simp only [List.length_append, List.length_singleton, if_neg hev]

/-- `saveState` on a manager whose cursor is strictly before the last
index: the redo branch is cut at the cursor and the new snapshot appended,
provided the resulting length stays within the capacity. -/
theorem saveState_trunc {h : HistoryManager} (canvas : Canvas)
    (action : String) (now : Nat)
    (hres : h.isRestoring = false)
    (hhi : h.currentIndex < (h.states.length : Int) - 1)
    (hnoev : ¬ ((jsSliceTo h.states (h.currentIndex + 1) ++
        [mkSnapshot canvas action now]).length > h.maxStates)) :
    (h.saveState canvas action now).1 =
      { h with
        states := jsSliceTo h.states (h.currentIndex + 1) ++
          [mkSnapshot canvas action now],
        currentIndex := h.currentIndex + 1 } := by
  unfold HistoryManager.saveState
  rw [if_neg (by rw [hres]; exact Bool.false_ne_true), if_pos hhi]
  simp only [if_neg hnoev]

/-- One commit preserves the reachability invariant, counting one more
commit. -/
theorem saveState_step {h : HistoryManager} {k C : Nat}
    (hinv : HistInv h k C) (canvas : Canvas) (action : String) (now : Nat) :
    HistInv ((h.saveState canvas action now).1) (k + 1) C := by
  obtain ⟨hlen, hcur, hres, hmax⟩ := hinv
  rw [saveState_at_end canvas action now hres (by omega)]
  by_cases hev : h.states.length + 1 > h.maxStates
  · rw [if_pos hev]
    refine ⟨?_, ?_, hres, hmax⟩
    · show ((h.states ++ [mkSnapshot canvas action now]).drop 1).length = min (k + 1) C
      rw [List.length_drop, List.length_append]
      simp only [List.length_singleton]
      omega
    · show h.currentIndex + 1 - 1 =
        (((h.states ++ [mkSnapshot canvas action now]).drop 1).length : Int) - 1
      rw [List.length_drop, List.length_append]
      simp only [List.length_singleton]
      push_cast
      omega
  · rw [if_neg hev]
    refine ⟨?_, ?_, hres, hmax⟩
    · show (h.states ++ [mkSnapshot canvas action now]).length = min (k + 1) C
      rw [List.length_append]
      simp only [List.length_singleton]
      omega
    · show h.currentIndex + 1 =
        ((h.states ++ [mkSnapshot canvas action now]).length : Int) - 1
      rw [List.length_append]
      simp only [List.length_singleton]
      push_cast
      omega

/-- The reachability invariant carried through a whole commit sequence. -/
theorem commitSeq_inv (C : Nat) (inputs : List CommitInput) :
    ∀ (h : HistoryManager) (k : Nat), HistInv h k C →
      HistInv (commitSeq h inputs) (k + inputs.length) C := by
  induction inputs with
  | nil =>
    intro h k hi
    simpa using hi
  | cons i rest ih =>
    intro h k hi
    have hstep := saveState_step hi i.canvas i.action i.now
    have := ih _ _ hstep
    have harith : k + 1 + rest.length = k + (i :: rest).length := by
      simp [List.length_cons]
      omega
    rw [harith] at this
    exact this

/-! ### Claim theorems -/

/-- C4: Eviction preserves the relative cursor position.  With capacity 2,
committing `a`, `b`, `c` in sequence leaves the history `[b, c]` with the
cursor at index 1 (on `c`); a subsequent `undo()` moves the cursor to
index 0, succeeds, and restores the canvas object set captured in `b`, not
the evicted `a`. -/
theorem claim_C4 :
    historyCap2ABC.states =
      [mkSnapshot (sampleCanvas 2) "b" 2, mkSnapshot (sampleCanvas 3) "c" 3] ∧
    historyCap2ABC.currentIndex = 1 ∧
    (HistoryManager.undo deserOk historyCap2ABC (sampleCanvas 3)).1.currentIndex = 0 ∧
    (HistoryManager.undo deserOk historyCap2ABC (sampleCanvas 3)).2.1.objects =
      (sampleCanvas 2).objects ∧
    (HistoryManager.undo deserOk historyCap2ABC (sampleCanvas 3)).2.2.1 =
      Except.ok true := by
  refine ⟨by decide, by decide, by decide, by decide, ?_⟩
  rfl

/-- C5: Reentrancy guard.  A `saveState` call made while a restore is in
progress (`isRestoring` true) is a complete no-op: the returned manager is
the original one (state list, cursor, and subscriber list all unchanged)
and no `change` notification is fired, so in particular the history length
after the restore completes equals the length before the commit attempt. -/
theorem claim_C5 (h : HistoryManager) (canvas : Canvas) (action : String)
    (now : Nat) (hr : h.isRestoring = true) :
    h.saveState canvas action now = (h, []) :=
  saveState_of_isRestoring canvas action now hr

/-- Witness for C5, at a concrete mid-restore manager. -/
theorem claim_C5_witness :
    historyMidRestore.isRestoring = true ∧
    historyMidRestore.saveState (sampleCanvas 4) "Edit" 9 = (historyMidRestore, []) :=
  ⟨rfl, claim_C5 historyMidRestore (sampleCanvas 4) "Edit" 9 rfl⟩

/-- C7: Layer order inversion.  For every scene-graph object list, the
projected layer list (through each descriptor's backing object) equals the
reverse of the scene graph's internal draw order restricted to content
objects: objects with `isCropUI` or `excludeFromExport` set are excluded.
In particular internal order `[obj1, obj2, obj3]` of content objects
projects to `[obj3, obj2, obj1]`. -/
theorem claim_C7 (objects : List SceneObject) :
    (syncLayers objects).map (fun l => l.object) =
      (objects.filter fun o => !o.isCropUI && !o.excludeFromExport).reverse := by
  unfold syncLayers
  rw [List.map_reverse]
  congr 1
  rw [List.mapIdx_eq_enum_map, List.map_map]
  have hcomp :
      ((fun l : Layer => l.object) ∘ Function.uncurry fun i o => mkLayer i o) =
        (Prod.snd : Nat × SceneObject → SceneObject) := by
    funext p
    rfl
  rw [hcomp, List.enum_map_snd]

/-- C8: Resync idempotence.  Running `_syncLayersFromCanvas` twice with no
intervening scene-graph change returns, the second time, exactly the
manager produced by the first run (in particular an identical layer
descriptor list: same identities, names, order and flags) and leaves the
canvas unchanged — the resync reads the scene graph but never mutates it. -/
theorem claim_C8 (lm : LayerManager) (canvas : Canvas) :
    LayerManager.syncLayersFromCanvas
        (LayerManager.syncLayersFromCanvas lm canvas).1
        (LayerManager.syncLayersFromCanvas lm canvas).2 =
      ((LayerManager.syncLayersFromCanvas lm canvas).1, canvas) := by
  simp only [LayerManager.syncLayersFromCanvas]
  rw [filter_self_filter]

/-- C1: Capacity invariant of the Snapshot Store.  For every sequence of
`N` commits on a fresh manager of capacity `C` (no restore in progress at
any point), the stored state list has length `min N C`; and whenever a
commit on a cursor-at-end manager pushes the length past the capacity, the
result is the old list with exactly the single oldest snapshot removed and
the new snapshot appended. -/
theorem claim_C1 (C : Nat) (inputs : List CommitInput) :
    (commitSeq (HistoryManager.new C) inputs).states.length =
      min inputs.length C ∧
    (∀ (h : HistoryManager) (canvas : Canvas) (action : String) (now : Nat),
      h.isRestoring = false →
      h.currentIndex = (h.states.length : Int) - 1 →
      h.states.length = C → 0 < C → h.maxStates = C →
      (h.saveState canvas action now).1.states =
        h.states.tail ++ [mkSnapshot canvas action now]) := by
  constructor
  · have hinv0 : HistInv (HistoryManager.new C) 0 C :=
      ⟨by simp [HistoryManager.new], by simp [HistoryManager.new], rfl, rfl⟩
    have := (commitSeq_inv C inputs (HistoryManager.new C) 0 hinv0).1
    simpa using this
  · intro h canvas action now hres hcur hlenC hC hmax
    rw [saveState_at_end canvas action now hres (by omega)]
    rw [if_pos (by omega)]
    show (h.states ++ [mkSnapshot canvas action now]).drop 1 =
      h.states.tail ++ [mkSnapshot canvas action now]
    rw [List.drop_append_of_le_length (by omega), List.drop_one]

/-- Witness for C1: three commits on capacity 2 give length `min 3 2`, and
one commit on the (full, cursor-at-end) manager `historyCap2ABC` evicts
exactly its oldest snapshot. -/
theorem claim_C1_witness :
    (commitSeq (HistoryManager.new 2)
        [⟨sampleCanvas 1, "a", 1⟩, ⟨sampleCanvas 2, "b", 2⟩,
         ⟨sampleCanvas 3, "c", 3⟩]).states.length = min 3 2 ∧
    (historyCap2ABC.saveState (sampleCanvas 4) "d" 4).1.states =
      historyCap2ABC.states.tail ++ [mkSnapshot (sampleCanvas 4) "d" 4] :=
  ⟨(claim_C1 2 [⟨sampleCanvas 1, "a", 1⟩, ⟨sampleCanvas 2, "b", 2⟩,
      ⟨sampleCanvas 3, "c", 3⟩]).1,
   (claim_C1 2 []).2 historyCap2ABC (sampleCanvas 4) "d" 4
      (by decide) (by decide) (by decide) (by decide) (by decide)⟩

/-- C2: Cursor truncation on commit.  For every non-restoring history
whose cursor is not at the last index (and within the reachable bounds
`-1 ≤ cursor` and `length ≤ capacity`), `saveState` discards all snapshots
after the cursor and appends the new snapshot; the cursor advances by one
and ends on the new last index. -/
theorem claim_C2 (h : HistoryManager) (canvas : Canvas) (action : String)
    (now : Nat)
    (hres : h.isRestoring = false)
    (hlo : -1 ≤ h.currentIndex)
    (hhi : h.currentIndex < (h.states.length : Int) - 1)
    (hcap : h.states.length ≤ h.maxStates) :
    (h.saveState canvas action now).1.states =
      h.states.take (h.currentIndex + 1).toNat ++ [mkSnapshot canvas action now] ∧
    (h.saveState canvas action now).1.currentIndex = h.currentIndex + 1 ∧
    (h.saveState canvas action now).1.currentIndex =
      (((h.saveState canvas action now).1.states.length : Int)) - 1 := by
  have hslice := jsSliceTo_of_nonneg h.states (h.currentIndex + 1) (by omega)
  have hkey := saveState_trunc canvas action now hres hhi
    (by rw [hslice, List.length_append, List.length_take, List.length_singleton]
        omega)
  rw [hslice] at hkey
  rw [hkey]
  refine ⟨rfl, rfl, ?_⟩
  show h.currentIndex + 1 =
    (((h.states.take (h.currentIndex + 1).toNat ++
        [mkSnapshot canvas action now]).length : Int)) - 1
  rw [List.length_append, List.length_take, List.length_singleton]
  push_cast
  omega

/-- Witness for C2: from snapshots `[a, b, c]` with the cursor on `b`
(index 1), committing `d` yields `[a, b, d]` with the cursor at index 2,
the new last index. -/
theorem claim_C2_witness :
    (historyABCatB.saveState (sampleCanvas 4) "d" 4).1.states =
      historyABCatB.states.take 2 ++ [mkSnapshot (sampleCanvas 4) "d" 4] ∧
    (historyABCatB.saveState (sampleCanvas 4) "d" 4).1.currentIndex = 2 ∧
    (historyABCatB.saveState (sampleCanvas 4) "d" 4).1.currentIndex =
      (((historyABCatB.saveState (sampleCanvas 4) "d" 4).1.states.length : Int)) - 1 :=
  claim_C2 historyABCatB (sampleCanvas 4) "d" 4
    (by decide) (by decide) (by decide) (by decide)

/-- C3: Undo/redo round-trip.  For every non-degenerate cursor position
(`0 < cursor < length`), `undo()` followed by `redo()` returns the cursor
to its original index, leaves the stored snapshot list completely
unmodified, and hence the snapshot at the cursor is byte-identical to what
it was before the undo.  This holds whatever the external deserializer
does (even if a restore step throws). -/
theorem claim_C3
    (deser : List SceneObject → Except String (List SceneObject))
    (h : HistoryManager) (canvas : Canvas)
    (h1 : 0 < h.currentIndex) (h2 : h.currentIndex < (h.states.length : Int)) :
    (HistoryManager.redo deser (HistoryManager.undo deser h canvas).1
        (HistoryManager.undo deser h canvas).2.1).1.currentIndex =
      h.currentIndex ∧
    (HistoryManager.redo deser (HistoryManager.undo deser h canvas).1
        (HistoryManager.undo deser h canvas).2.1).1.states = h.states ∧
    jsGet (HistoryManager.redo deser (HistoryManager.undo deser h canvas).1
        (HistoryManager.undo deser h canvas).2.1).1.states
      (HistoryManager.redo deser (HistoryManager.undo deser h canvas).1
        (HistoryManager.undo deser h canvas).2.1).1.currentIndex =
      jsGet h.states h.currentIndex := by
  obtain ⟨b, hb⟩ := restoreState_fst deser
    { h with currentIndex := h.currentIndex - 1 } canvas
    (jsGet h.states (h.currentIndex - 1))
  have hundo1 : (HistoryManager.undo deser h canvas).1 =
      { h with currentIndex := h.currentIndex - 1, isRestoring := b } := by
    unfold HistoryManager.undo
    rw [if_pos (by simp only [HistoryManager.canUndo, decide_eq_true_eq]; omega)]
    exact hb
  obtain ⟨b', hb'⟩ := restoreState_fst deser
    { h with currentIndex := h.currentIndex - 1 + 1, isRestoring := b }
    (HistoryManager.undo deser h canvas).2.1
    (jsGet h.states (h.currentIndex - 1 + 1))
  have hredo1 : (HistoryManager.redo deser (HistoryManager.undo deser h canvas).1
      (HistoryManager.undo deser h canvas).2.1).1 =
      { h with currentIndex := h.currentIndex - 1 + 1, isRestoring := b' } := by
    have hcr : ({ h with
        currentIndex := h.currentIndex - 1,
        isRestoring := b } : HistoryManager).canRedo = true := by
      simp only [HistoryManager.canRedo, decide_eq_true_eq]
      show h.currentIndex - 1 < (h.states.length : Int) - 1
      omega
    rw [hundo1]
    unfold HistoryManager.redo
    rw [if_pos hcr]
    exact hb'
  rw [hredo1]
  refine ⟨?_, rfl, ?_⟩
  · show h.currentIndex - 1 + 1 = h.currentIndex
    omega
  · show jsGet h.states (h.currentIndex - 1 + 1) = jsGet h.states h.currentIndex
    congr 1
    omega

/-- Witness for C3, on `[a, b, c]` with the cursor at index 1 and the
round-tripping deserializer. -/
theorem claim_C3_witness :
    (HistoryManager.redo deserOk
        (HistoryManager.undo deserOk historyABCatB (sampleCanvas 9)).1
        (HistoryManager.undo deserOk historyABCatB (sampleCanvas 9)).2.1).1.currentIndex =
      historyABCatB.currentIndex ∧
    (HistoryManager.redo deserOk
        (HistoryManager.undo deserOk historyABCatB (sampleCanvas 9)).1
        (HistoryManager.undo deserOk historyABCatB (sampleCanvas 9)).2.1).1.states =
      historyABCatB.states :=
  ⟨(claim_C3 deserOk historyABCatB (sampleCanvas 9) (by decide) (by decide)).1,
   (claim_C3 deserOk historyABCatB (sampleCanvas 9) (by decide) (by decide)).2.1⟩

/-- C6: Undo/redo failure semantics.  `undo()` returns `false` with the
manager and canvas completely unchanged and no restore invoked whenever
the cursor is `≤ 0`; `redo()` does the same whenever the cursor is at (or
beyond) the last index.  Otherwise the cursor is decremented
(respectively incremented) and the Restore Protocol is invoked with the
snapshot now at the cursor. -/
theorem claim_C6
    (deser : List SceneObject → Except String (List SceneObject))
    (h : HistoryManager) (canvas : Canvas) :
    (h.currentIndex ≤ 0 →
      HistoryManager.undo deser h canvas = (h, canvas, Except.ok false, [])) ∧
    ((h.states.length : Int) - 1 ≤ h.currentIndex →
      HistoryManager.redo deser h canvas = (h, canvas, Except.ok false, [])) ∧
    (0 < h.currentIndex →
      HistoryManager.undo deser h canvas =
        HistoryManager.restoreState deser
          { h with currentIndex := h.currentIndex - 1 } canvas
          (jsGet h.states (h.currentIndex - 1))) ∧
    (h.currentIndex < (h.states.length : Int) - 1 →
      HistoryManager.redo deser h canvas =
        HistoryManager.restoreState deser
          { h with currentIndex := h.currentIndex + 1 } canvas
          (jsGet h.states (h.currentIndex + 1))) := by
  refine ⟨?_, ?_, ?_, ?_⟩
  · intro hc
    unfold HistoryManager.undo
    rw [if_neg (by simp only [HistoryManager.canUndo, decide_eq_true_eq]; omega)]
  · intro hc
    unfold HistoryManager.redo
    rw [if_neg (by simp only [HistoryManager.canRedo, decide_eq_true_eq]; omega)]
  · intro hc
    unfold HistoryManager.undo
    rw [if_pos (by simp only [HistoryManager.canUndo, decide_eq_true_eq]; omega)]
  · intro hc
    unfold HistoryManager.redo
    rw [if_pos (by simp only [HistoryManager.canRedo, decide_eq_true_eq]; omega)]

/-- Witness for C6: a failed undo at cursor 0, a failed redo at the last
index, and a successful undo and redo from cursor 1 of `[a, b, c]`. -/
theorem claim_C6_witness :
    (HistoryManager.undo deserOk historyAtStart (sampleCanvas 5) =
      (historyAtStart, sampleCanvas 5, Except.ok false, [])) ∧
    (HistoryManager.redo deserOk historyCap2ABC (sampleCanvas 5) =
      (historyCap2ABC, sampleCanvas 5, Except.ok false, [])) ∧
    (HistoryManager.undo deserOk historyABCatB (sampleCanvas 5) =
      HistoryManager.restoreState deserOk
        { historyABCatB with currentIndex := historyABCatB.currentIndex - 1 }
        (sampleCanvas 5)
        (jsGet historyABCatB.states (historyABCatB.currentIndex - 1))) ∧
    (HistoryManager.redo deserOk historyABCatB (sampleCanvas 5) =
      HistoryManager.restoreState deserOk
        { historyABCatB with currentIndex := historyABCatB.currentIndex + 1 }
        (sampleCanvas 5)
        (jsGet historyABCatB.states (historyABCatB.currentIndex + 1))) :=
  ⟨(claim_C6 deserOk historyAtStart (sampleCanvas 5)).1 (by decide),
   (claim_C6 deserOk historyCap2ABC (sampleCanvas 5)).2.1 (by decide),
   (claim_C6 deserOk historyABCatB (sampleCanvas 5)).2.2.1 (by decide),
   (claim_C6 deserOk historyABCatB (sampleCanvas 5)).2.2.2 (by decide)⟩

/-- C9: Restore atomicity on deserialization failure.  Whenever
deserializing a snapshot's serialized scene throws, the error propagates
to the caller (the restore resolves to that error) and the Scene Graph —
the drawable object set, which is replaced only after deserialization
succeeds — is left untouched in its pre-restore state; no partial
application of the object set happens. -/
theorem claim_C9
    (deser : List SceneObject → Except String (List SceneObject))
    (h : HistoryManager) (canvas : Canvas) (st : Snapshot) (e : String)
    (hf : deser st.json = Except.error e) :
    (HistoryManager.restoreState deser h canvas (some st)).2.2.1 =
      Except.error e ∧
    (HistoryManager.restoreState deser h canvas (some st)).2.1.objects =
      canvas.objects := by
  rw [restoreState_of_error deser h canvas st e hf]
  refine ⟨rfl, ?_⟩
  show (applySnapshotBackground (applySnapshotDims canvas st) st).objects =
    canvas.objects
  rw [applySnapshotBackground_objects, applySnapshotDims_objects]

/-- Witness for C9, with the always-throwing deserializer. -/
theorem claim_C9_witness :
    (HistoryManager.restoreState deserFail historyABCatB (sampleCanvas 9)
        (some (mkSnapshot (sampleCanvas 2) "b" 2))).2.2.1 =
      Except.error "malformed" ∧
    (HistoryManager.restoreState deserFail historyABCatB (sampleCanvas 9)
        (some (mkSnapshot (sampleCanvas 2) "b" 2))).2.1.objects =
      (sampleCanvas 9).objects :=
  claim_C9 deserFail historyABCatB (sampleCanvas 9)
    (mkSnapshot (sampleCanvas 2) "b" 2) "malformed" rfl

/-- C10 (implicit): if the asynchronous scene-load step of a restore
throws, the `isRestoring` flag is never cleared — there is no reset on the
error exit path — so every subsequent `saveState` call (any sequence of
commits, for the rest of the session) is silently ignored: each returns
the manager unchanged with no notification, and the history never grows
again. -/
theorem claim_C10
    (deser : List SceneObject → Except String (List SceneObject))
    (h : HistoryManager) (canvas : Canvas) (st : Snapshot) (e : String)
    (hf : deser st.json = Except.error e) (inputs : List CommitInput) :
    (HistoryManager.restoreState deser h canvas (some st)).1.isRestoring = true ∧
    (∀ (c : Canvas) (a : String) (t : Nat),
      ((HistoryManager.restoreState deser h canvas (some st)).1.saveState c a t) =
        ((HistoryManager.restoreState deser h canvas (some st)).1, [])) ∧
    commitSeq (HistoryManager.restoreState deser h canvas (some st)).1 inputs =
      (HistoryManager.restoreState deser h canvas (some st)).1 := by
  rw [restoreState_of_error deser h canvas st e hf]
  refine ⟨rfl, ?_, ?_⟩
  · intro c a t
    exact saveState_of_isRestoring c a t rfl
  · exact commitSeq_of_isRestoring inputs rfl

/-- Witness for C10: after a failed restore, a concrete sequence of two
commit attempts leaves the manager exactly as the failed restore left it. -/
theorem claim_C10_witness :
    (HistoryManager.restoreState deserFail historyABCatB (sampleCanvas 9)
        (some (mkSnapshot (sampleCanvas 3) "c" 3))).1.isRestoring = true ∧
    commitSeq (HistoryManager.restoreState deserFail historyABCatB (sampleCanvas 9)
        (some (mkSnapshot (sampleCanvas 3) "c" 3))).1
        [⟨sampleCanvas 4, "d", 4⟩, ⟨sampleCanvas 5, "e", 5⟩] =
      (HistoryManager.restoreState deserFail historyABCatB (sampleCanvas 9)
        (some (mkSnapshot (sampleCanvas 3) "c" 3))).1 :=
  ⟨(claim_C10 deserFail historyABCatB (sampleCanvas 9)
      (mkSnapshot (sampleCanvas 3) "c" 3) "malformed" rfl
      [⟨sampleCanvas 4, "d", 4⟩, ⟨sampleCanvas 5, "e", 5⟩]).1,
   (claim_C10 deserFail historyABCatB (sampleCanvas 9)
      (mkSnapshot (sampleCanvas 3) "c" 3) "malformed" rfl
      [⟨sampleCanvas 4, "d", 4⟩, ⟨sampleCanvas 5, "e", 5⟩]).2.2⟩

end PhotoLite
